import Mathlib

/-!
Shallow embedding of the `term-tetris` game core (src/main.rs).

The board is a 10×20 grid of optional cells; a piece is a kind, a rotation
state (always in 0..3 in the source, modelled as `Fin 4`), and an anchor
position in `i32` board coordinates (modelled as `Int`).  Score / level /
line counters are `u64`/`u32` in the source; the game never approaches
their ranges, so they are modelled as `Nat`.  Terminal I/O and the random
number generator are outside the embedding: randomness is passed in as an
explicit `Kind` argument where the source calls `kinds.choose(&mut rng)`.
-/

namespace TermTetris

/-- `const W: usize = 10` — board width. -/
def W : Nat := 10

/-- `const H: usize = 20` — board height. -/
def H : Nat := 20

/-- `enum Kind { I, O, T, S, Z, J, L }` -/
inductive Kind where
  | I | O | T | S | Z | J | L
  deriving DecidableEq, Repr, Fintype

/-- `struct Cell { kind: Kind }` -/
structure Cell where
  kind : Kind
  deriving DecidableEq, Repr

/-- One row of the board: `[Option<Cell>; W]`. -/
abbrev Row := List (Option Cell)

/-- `struct Board { grid: [[Option<Cell>; W]; H] }` (row-major, `grid[y][x]`). -/
structure Board where
  grid : List Row
  deriving DecidableEq, Repr

/-- An all-empty row `[None; W]`. -/
def emptyRow : Row := List.replicate W none

/-- `Board::new` — the empty grid. -/
def Board.new : Board := ⟨List.replicate H emptyRow⟩

/-- `Board::inside(x, y)` -/
def Board.inside (x y : Int) : Bool :=
  0 ≤ x && x < (W : Int) && 0 ≤ y && y < (H : Int)

/-- `Board::get` — `None` for out-of-range coordinates. -/
def Board.get (b : Board) (x y : Int) : Option Cell :=
  if Board.inside x y then (b.grid.getD y.toNat []).getD x.toNat none else none

/-- `Board::set` — no-op for out-of-range coordinates. -/
def Board.set (b : Board) (x y : Int) (c : Option Cell) : Board :=
  if Board.inside x y then
    ⟨b.grid.set y.toNat ((b.grid.getD y.toNat []).set x.toNat c)⟩
  else b

/-- `struct Piece { kind: Kind, rot: u8, x: i32, y: i32 }`.
The source keeps `rot` in 0..3 (`% 4` at every write), so it is a `Fin 4`. -/
structure Piece where
  kind : Kind
  rot : Fin 4
  x : Int
  y : Int
  deriving DecidableEq, Repr

/-- `Piece::new(kind)` — spawn at x=3, y=0, rotation 0. -/
def Piece.new (kind : Kind) : Piece := ⟨kind, 0, 3, 0⟩

/-- `Piece::shape` — the static (kind, rotation) → 4 offsets table,
transcribed verbatim from the source. -/
def Piece.shape (kind : Kind) : Fin 4 → List (Int × Int) :=
  match kind with
  | Kind.I => ![[(0,1),(1,1),(2,1),(3,1)],
                [(2,0),(2,1),(2,2),(2,3)],
                [(0,2),(1,2),(2,2),(3,2)],
                [(1,0),(1,1),(1,2),(1,3)]]
  | Kind.O => ![[(1,0),(2,0),(1,1),(2,1)],
                [(1,0),(2,0),(1,1),(2,1)],
                [(1,0),(2,0),(1,1),(2,1)],
                [(1,0),(2,0),(1,1),(2,1)]]
  | Kind.T => ![[(1,0),(0,1),(1,1),(2,1)],
                [(1,0),(1,1),(2,1),(1,2)],
                [(0,1),(1,1),(2,1),(1,2)],
                [(1,0),(0,1),(1,1),(1,2)]]
  | Kind.S => ![[(1,0),(2,0),(0,1),(1,1)],
                [(1,0),(1,1),(2,1),(2,2)],
                [(1,1),(2,1),(0,2),(1,2)],
                [(0,0),(0,1),(1,1),(1,2)]]
  | Kind.Z => ![[(0,0),(1,0),(1,1),(2,1)],
                [(2,0),(1,1),(2,1),(1,2)],
                [(0,1),(1,1),(1,2),(2,2)],
                [(1,0),(0,1),(1,1),(0,2)]]
  | Kind.J => ![[(0,0),(0,1),(1,1),(2,1)],
                [(1,0),(2,0),(1,1),(1,2)],
                [(0,1),(1,1),(2,1),(2,2)],
                [(1,0),(1,1),(0,2),(1,2)]]
  | Kind.L => ![[(2,0),(0,1),(1,1),(2,1)],
                [(1,0),(1,1),(1,2),(2,2)],
                [(0,1),(1,1),(2,1),(0,2)],
                [(0,0),(1,0),(1,1),(1,2)]]

/-- `Piece::blocks` — offsets of the current kind and rotation. -/
def Piece.blocks (p : Piece) : List (Int × Int) := Piece.shape p.kind p.rot

/-- `Board::lock_piece` — write the piece's 4 cells into the grid. -/
def Board.lock_piece (b : Board) (p : Piece) : Board :=
  p.blocks.foldl (fun b d => b.set (p.x + d.1) (p.y + d.2) (some ⟨p.kind⟩)) b

/-- `Board::collides` — true iff some absolute cell of the piece is
out of bounds or already occupied. -/
def Board.collides (b : Board) (p : Piece) : Bool :=
  p.blocks.any fun d =>
    let x := p.x + d.1
    let y := p.y + d.2
    !Board.inside x y || (b.get x y).isSome

/-- `Piece::try_move` — in the source the piece is mutated in place and a
`bool` is returned; here the pair (returned bool, resulting piece). -/
def Piece.try_move (p : Piece) (board : Board) (dx dy : Int) : Bool × Piece :=
  let q : Piece := { p with x := p.x + dx, y := p.y + dy }
  if board.collides q then (false, p) else (true, q)

/-- The kick loop of `Piece::try_rotate`: `rotated` is the piece with the
new rotation state, `orig` the piece before the call. -/
def Piece.tryRotateKicks (rotated orig : Piece) (board : Board) :
    List Int → Bool × Piece
  | [] => (false, orig)
  | k :: ks =>
    let t : Piece := { rotated with x := rotated.x + k }
    if board.collides t then Piece.tryRotateKicks rotated orig board ks
    else (true, t)

/-- `Piece::try_rotate` — rotation state `(rot+1) % 4` (cw) or `(rot+3) % 4`
(ccw), then kicks `[0, -1, 1, -2, 2]` in order. -/
def Piece.try_rotate (p : Piece) (board : Board) (cw : Bool) : Bool × Piece :=
  let q : Piece := { p with rot := p.rot + (if cw then 1 else 3) }
  Piece.tryRotateKicks q p board [0, -1, 1, -2, 2]

/-- `gravity_delay_ms` — `u64` arithmetic; `saturating_sub` on `Nat` is
plain subtraction. -/
def gravity_delay_ms (level : Nat) : Nat :=
  let base := 800
  let step := (min (level - 1) 15) * 45
  base - step

/-- The `while` loop of `hard_drop`: descend while the row below is free,
counting rows.  Terminates because a non-colliding position has `y < H`:
every shape has a block with non-negative dy, and that block must be
inside the board. -/
def hardDropLoop (board : Board) (p : Piece) (rows : Nat) : Piece × Nat :=
  if h : board.collides { p with y := p.y + 1 } then (p, rows)
  else hardDropLoop board { p with y := p.y + 1 } (rows + 1)
termination_by ((H : Int) + 1 - p.y).toNat
decreasing_by
  have hcol : board.collides { p with y := p.y + 1 } = false := by simpa using h
  have hblocks : ∀ k : Kind, ∀ r : Fin 4, ∃ d ∈ Piece.shape k r, 0 ≤ d.2 := by
    decide
  obtain ⟨d, hd, hdy⟩ := hblocks p.kind p.rot
  have h2 := List.any_eq_false.mp hcol d hd
  simp only [Bool.not_eq_true, Bool.or_eq_false_iff, Bool.not_eq_false'] at h2
  obtain ⟨hin, -⟩ := h2
  simp only [Board.inside, Bool.and_eq_true, decide_eq_true_eq] at hin
  obtain ⟨⟨⟨-, -⟩, -⟩, hy2⟩ := hin
  omega

/-- `hard_drop(board, p) -> (Piece, rows)`. -/
def hard_drop (board : Board) (p : Piece) : Piece × Nat :=
  hardDropLoop board p 0

/-- The fullness test of `Board::clear_lines`:
`(0..W as i32).all(|x| self.get(x, y).is_some())`. -/
def Board.row_full (b : Board) (y : Int) : Bool :=
  (List.range W).all fun x => (b.get (x : Int) y).isSome

/-- The scan loop of `Board::clear_lines`: iterate `y` from `H-1` down to 0
(the `Nat` counter is `y+1`), carrying the grid, `write_y : i32` and the
cleared count.  `write_y ≥ y` holds throughout, so `write_y.toNat` matches
the source's `write_y as usize` at every write. -/
def Board.clearAux : Nat → List Row → Int → Nat → List Row × Int × Nat
  | 0, g, w, c => (g, w, c)
  | n + 1, g, w, c =>
    let full := Board.row_full ⟨g⟩ (n : Int)
    if !full then
      let g' := if w ≠ (n : Int) then g.set w.toNat (g.getD n []) else g
      Board.clearAux n g' (w - 1) c
    else
      Board.clearAux n g w (c + 1)

/-- The final loop of `Board::clear_lines`:
`for y in 0..=write_y { self.grid[y as usize] = [None; W]; }` —
`blankRows g n` blanks rows `0..n-1`, where `n = (write_y + 1).toNat`
(0 when `write_y` ended negative). -/
def blankRows (g : List Row) : Nat → List Row
  | 0 => g
  | n + 1 => (blankRows g n).set n emptyRow

/-- `Board::clear_lines` — returns (cleared count, compacted board). -/
def Board.clear_lines (b : Board) : Nat × Board :=
  let r := Board.clearAux H b.grid ((H : Int) - 1) 0
  (r.2.2, ⟨blankRows r.1 (r.2.1 + 1).toNat⟩)

/-- `struct Game` — terminal and RNG handles excluded. -/
structure Game where
  board : Board
  cur : Piece
  next : Kind
  score : Nat
  level : Nat
  lines : Nat
  over : Bool
  deriving DecidableEq, Repr

/-- `Game::new` — the two random draws (`first` and `next`) are passed in
explicitly. -/
def Game.new (first next : Kind) : Game :=
  { board := Board.new, cur := Piece.new first, next := next,
    score := 0, level := 1, lines := 0, over := false }

/-- `Game::spawn_next` — `nk` is the kind drawn by
`kinds.choose(&mut rng)` for the new "next". -/
def Game.spawn_next (g : Game) (nk : Kind) : Game :=
  let cur := Piece.new g.next
  { g with cur := cur, next := nk,
           over := if g.board.collides cur then true else g.over }

/-- The keys the main loop recognises (`match code { ... }`); `other`
stands for any unrecognized key. -/
inductive Key where
  | quit        -- 'q' or Esc: break the loop
  | left        -- Left or 'a'
  | right       -- Right or 'd'
  | down        -- Down or 's' (soft drop)
  | rotCW       -- Up, 'w' or 'k'
  | rotCCW      -- 'j'
  | drop        -- Space (hard drop)
  | forceQuit   -- Ctrl+C: break the loop
  | other
  deriving DecidableEq, Repr

/-- The input-handling arm of the main loop: the state change a single key
event applies to the game (quit keys break the loop and change nothing). -/
def handleKey (g : Game) (k : Key) : Game :=
  match k with
  | Key.quit => g
  | Key.left =>
    let r := g.cur.try_move g.board (-1) 0
    if r.1 then { g with cur := r.2 } else g
  | Key.right =>
    let r := g.cur.try_move g.board 1 0
    if r.1 then { g with cur := r.2 } else g
  | Key.down =>
    let r := g.cur.try_move g.board 0 1
    if r.1 then { g with cur := r.2, score := g.score + 1 } else g
  | Key.rotCW =>
    let r := g.cur.try_rotate g.board true
    if r.1 then { g with cur := r.2 } else g
  | Key.rotCCW =>
    let r := g.cur.try_rotate g.board false
    if r.1 then { g with cur := r.2 } else g
  | Key.drop =>
    let r := hard_drop g.board g.cur
    { g with cur := r.1, score := g.score + r.2 * 2 }
  | Key.forceQuit => g
  | Key.other => g

/-- The gravity-tick arm of the main loop (the body run when
`now.duration_since(last_grav) >= gravity`); `nk` is the random kind drawn
inside `spawn_next`. -/
def gravityTick (g : Game) (nk : Kind) : Game :=
  let r := g.cur.try_move g.board 0 1
  if r.1 then { g with cur := r.2 }
  else
    let b1 := g.board.lock_piece r.2
    let cl := b1.clear_lines
    let cleared := cl.1
    let g1 : Game := { g with board := cl.2 }
    let g2 : Game :=
      if cleared > 0 then
        let lines := g1.lines + cleared
        let score := g1.score +
          (match cleared with
           | 1 => 100 | 2 => 300 | 3 => 500 | 4 => 800 | _ => 1000) * g1.level
        let level := if lines / 10 ≥ g1.level then g1.level + 1 else g1.level
        { g1 with lines := lines, score := score, level := level }
      else g1
    g2.spawn_next nk

/-- Row fullness as a predicate on a row by itself (the loop of
`clear_lines` tests `(0..W).all(|x| self.get(x, y).is_some())`; for an
in-range `y` of a well-formed grid this is the same test). -/
def isFull (r : Row) : Bool := (List.range W).all fun x => (r.getD x none).isSome

/-- Every cell occupied — used to exhibit failing moves and rotations. -/
def fullBoard : Board := ⟨List.replicate H (List.replicate W (some ⟨Kind.I⟩))⟩

/-- A row with a single gap at column `j` (so partially filled). -/
def gapRow (j : Nat) : Row :=
  (List.range W).map fun i => if i = j then none else some ⟨Kind.I⟩

/-- A full row of O-cells. -/
def fullRowO : Row := List.replicate W (some ⟨Kind.O⟩)

/-- A board with exactly rows 2 and 5 full and every other row partially
filled, the partial rows pairwise distinct (row `i` has its gap at column
`i % 10`). -/
def rows25Board : Board :=
  ⟨(List.range H).map fun i => if i = 2 ∨ i = 5 then fullRowO else gapRow (i % W)⟩

/-- A row occupied everywhere except columns 4 and 5. -/
def twoGapRow : Row :=
  (List.range W).map fun i => if i = 4 ∨ i = 5 then none else some ⟨Kind.I⟩

/-- Rows 18 and 19 occupied except at columns 4 and 5; an O piece locked at
x=3 fills exactly those four gaps. -/
def nearClearBoard : Board := ⟨List.replicate 18 emptyRow ++ [twoGapRow, twoGapRow]⟩

/-- A game one gravity tick away from a double line clear at level 1 with 8
cumulative lines. -/
def g8a : Game :=
  { board := nearClearBoard, cur := { kind := Kind.O, rot := 0, x := 3, y := 18 },
    next := Kind.T, score := 0, level := 1, lines := 8, over := false }

/-- The same position at level 2 with 18 cumulative lines. -/
def g8b : Game := { g8a with level := 2, lines := 18 }

/-!  Theorems.  -/

/-- The bounds test of `Board::inside`, spelled out. -/
theorem inside_iff (x y : Int) :
    Board.inside x y = true ↔ 0 ≤ x ∧ x < 10 ∧ 0 ≤ y ∧ y < 20 := by
  simp only [Board.inside, Bool.and_eq_true, decide_eq_true_eq, W, H]
  norm_num
  omega

/-- C1: `collides(board, piece)` is true iff at least one of the piece's 4
absolute cells (anchor position plus shape offset) lies outside
[0,10)×[0,20) or coincides with an already occupied cell of the grid. -/
theorem c1_collides_iff (b : Board) (p : Piece) :
    b.collides p = true ↔
      ∃ d ∈ p.blocks,
        ¬(0 ≤ p.x + d.1 ∧ p.x + d.1 < 10 ∧ 0 ≤ p.y + d.2 ∧ p.y + d.2 < 20) ∨
        ((b.grid.getD (p.y + d.2).toNat []).getD (p.x + d.1).toNat none).isSome
          = true := by
  simp only [Board.collides, List.any_eq_true, Bool.or_eq_true, Bool.not_eq_true']
  refine exists_congr fun d => ?_
  refine and_congr_right fun hd => ?_
  constructor
  · rintro (hout | hocc)
    · left
      intro hc
      rw [(inside_iff _ _).mpr hc] at hout
      cases hout
    · by_cases hin : Board.inside (p.x + d.1) (p.y + d.2) = true
      · right
        simpa only [Board.get, hin, if_true] using hocc
      · left
        intro hc
        exact hin ((inside_iff _ _).mpr hc)
  · rintro (hout | hocc)
    · left
      cases h' : Board.inside (p.x + d.1) (p.y + d.2) with
      | false => rfl
      | true => exact absurd ((inside_iff _ _).mp h') hout
    · by_cases hin : Board.inside (p.x + d.1) (p.y + d.2) = true
      · right
        simpa only [Board.get, hin, if_true] using hocc
      · left
        simp only [Bool.not_eq_true] at hin
        exact hin

/-- The kick loop returns the first non-colliding kick in list order,
matching `List.find?`. -/
theorem tryRotateKicks_eq_find (rotated orig : Piece) (b : Board) (ks : List Int) :
    Piece.tryRotateKicks rotated orig b ks =
      match ks.find? (fun k => !b.collides { rotated with x := rotated.x + k }) with
      | some k => (true, { rotated with x := rotated.x + k })
      | none => (false, orig) := by
  induction ks with
  | nil => rfl
  | cons k ks ih =>
    by_cases hc : b.collides { rotated with x := rotated.x + k } = true
    · rw [List.find?_cons_of_neg _ (by simp [hc])]
      simpa only [Piece.tryRotateKicks, hc, if_true] using ih
    · rw [List.find?_cons_of_pos _ (by simp [hc])]
      simp only [Bool.not_eq_true] at hc
      simp [Piece.tryRotateKicks, hc]

/-- C4: `try_rotate` targets rotation state `(rot+1) % 4` (clockwise) or
`(rot+3) % 4` (counter-clockwise) — the `Fin 4` addition below is exactly
that `% 4` arithmetic — then tests the kick offsets in the exact order
0, -1, +1, -2, +2 and commits the first non-colliding one, changing only
the rotation state and x (y and kind are untouched in the committed
piece); if all five offsets collide it returns false and the piece. -/
theorem c4_try_rotate (p : Piece) (b : Board) (cw : Bool) :
    (p.try_rotate b cw =
      match [0, -1, 1, -2, 2].find?
          (fun k => !b.collides { p with rot := p.rot + (if cw then 1 else 3),
                                         x := p.x + k }) with
      | some k => (true, { p with rot := p.rot + (if cw then 1 else 3),
                                  x := p.x + k })
      | none => (false, p)) ∧
    (p.rot + (if cw then (1 : Fin 4) else 3)).val
      = (p.rot.val + (if cw then 1 else 3)) % 4 := by
  constructor
  · exact tryRotateKicks_eq_find _ p b _
  · rw [Fin.val_add]
    cases cw <;> rfl

/-- Failed `try_move` returns the original piece. -/
theorem try_move_snd_of_false (p : Piece) (b : Board) (dx dy : Int)
    (h : (p.try_move b dx dy).1 = false) : (p.try_move b dx dy).2 = p := by
  by_cases hc : b.collides { p with x := p.x + dx, y := p.y + dy } = true
  · simp [Piece.try_move, hc]
  · simp [Piece.try_move, hc] at h

/-- Failed kick loop returns the original piece. -/
theorem tryRotateKicks_snd_of_false (rotated orig : Piece) (b : Board)
    (ks : List Int) (h : (Piece.tryRotateKicks rotated orig b ks).1 = false) :
    (Piece.tryRotateKicks rotated orig b ks).2 = orig := by
  induction ks with
  | nil => rfl
  | cons k ks ih =>
    by_cases hc : b.collides { rotated with x := rotated.x + k } = true
    · simp only [Piece.tryRotateKicks, hc, if_true] at h ⊢
      exact ih h
    · simp [Piece.tryRotateKicks, hc] at h

/-- C5: whenever `try_move` or `try_rotate` reports failure, the resulting
piece (kind, rotation, x and y) is exactly the piece before the call. -/
theorem c5_failed_ops_noop (p : Piece) (b : Board) (dx dy : Int) (cw : Bool) :
    ((p.try_move b dx dy).1 = false → (p.try_move b dx dy).2 = p) ∧
    ((p.try_rotate b cw).1 = false → (p.try_rotate b cw).2 = p) :=
  ⟨try_move_snd_of_false p b dx dy,
   fun h => tryRotateKicks_snd_of_false _ p b _ h⟩

/-- Witness for C5: on a completely occupied board both a downward move and
a clockwise rotation of a fresh I piece fail and leave the piece intact. -/
theorem c5_witness :
    ((Piece.new Kind.I).try_move fullBoard 0 1).2 = Piece.new Kind.I ∧
    ((Piece.new Kind.I).try_rotate fullBoard true).2 = Piece.new Kind.I :=
  ⟨(c5_failed_ops_noop (Piece.new Kind.I) fullBoard 0 1 true).1 (by decide),
   (c5_failed_ops_noop (Piece.new Kind.I) fullBoard 0 1 true).2 (by decide)⟩

/-- C7: `spawn_next` makes the stored next kind current at x=3, y=0,
rotation 0, stores the fresh draw as next, leaves the board untouched, and
the game-over flag becomes true exactly if the spawned piece collides (it
keeps its previous value otherwise). -/
theorem c7_spawn_next (g : Game) (nk : Kind) :
    (g.spawn_next nk).cur = Piece.new g.next ∧
    Piece.new g.next = { kind := g.next, rot := 0, x := 3, y := 0 } ∧
    (g.spawn_next nk).next = nk ∧
    (g.spawn_next nk).board = g.board ∧
    (g.spawn_next nk).over = (g.board.collides (Piece.new g.next) || g.over) := by
  refine ⟨rfl, rfl, rfl, rfl, ?_⟩
  simp only [Game.spawn_next]
  cases h : g.board.collides (Piece.new g.next) <;> simp [h]

/-- C9: for level L ≥ 1 the gravity delay is max(0, 800 − 45·min(L−1,15))
milliseconds; it is 800 at level 1 and clamps to 125 from level 16 on. -/
theorem c9_gravity_delay (L : Nat) (h : 1 ≤ L) :
    ((gravity_delay_ms L : Int) = max 0 (800 - 45 * min ((L : Int) - 1) 15)) ∧
    gravity_delay_ms 1 = 800 ∧ gravity_delay_ms 16 = 125 ∧
    gravity_delay_ms 100 = 125 := by
  refine ⟨?_, rfl, rfl, rfl⟩
  simp only [gravity_delay_ms]
  omega

/-- Witness for C9 at L = 16. -/
theorem c9_witness :
    ((gravity_delay_ms 16 : Int) = max 0 (800 - 45 * min ((16 : Int) - 1) 15)) ∧
    gravity_delay_ms 1 = 800 ∧ gravity_delay_ms 16 = 125 ∧
    gravity_delay_ms 100 = 125 :=
  c9_gravity_delay 16 (by decide)

/-- The per-key score change of the input-handling arm. -/
theorem handleKey_score_eq (g : Game) (k : Key) :
    (handleKey g k).score =
      match k with
      | Key.down => if (g.cur.try_move g.board 0 1).1 then g.score + 1 else g.score
      | Key.drop => g.score + (hard_drop g.board g.cur).2 * 2
      | _ => g.score := by
  cases k <;> simp only [handleKey] <;> (try split) <;> simp

/-- The score change of one gravity tick. -/
theorem gravityTick_score_eq (g : Game) (nk : Kind) :
    (gravityTick g nk).score =
      if (g.cur.try_move g.board 0 1).1 then g.score
      else if 0 < ((g.board.lock_piece g.cur).clear_lines).1 then
        g.score + (match ((g.board.lock_piece g.cur).clear_lines).1 with
                   | 1 => 100 | 2 => 300 | 3 => 500 | 4 => 800 | _ => 1000) * g.level
      else g.score := by
  simp only [gravityTick]
  cases hr : g.cur.try_move g.board 0 1 with
  | mk ok p =>
    cases ok with
    | true => simp
    | false =>
      have hp : p = g.cur := by
        have h2 := try_move_snd_of_false g.cur g.board 0 1 (by rw [hr])
        rwa [hr] at h2
      subst hp
      simp only [Game.spawn_next]
      by_cases h1 : 0 < ((g.board.lock_piece g.cur).clear_lines).1 <;> simp [h1]

/-- The level change of one gravity tick. -/
theorem gravityTick_level_eq (g : Game) (nk : Kind) :
    (gravityTick g nk).level =
      if (g.cur.try_move g.board 0 1).1 = false ∧
         0 < ((g.board.lock_piece g.cur).clear_lines).1 ∧
         g.level ≤ (g.lines + ((g.board.lock_piece g.cur).clear_lines).1) / 10 then
        g.level + 1
      else g.level := by
  simp only [gravityTick]
  cases hr : g.cur.try_move g.board 0 1 with
  | mk ok p =>
    cases ok with
    | true => simp
    | false =>
      have hp : p = g.cur := by
        have h2 := try_move_snd_of_false g.cur g.board 0 1 (by rw [hr])
        rwa [hr] at h2
      subst hp
      simp only [Game.spawn_next]
      by_cases h1 : 0 < ((g.board.lock_piece g.cur).clear_lines).1 <;>
        by_cases h2 : g.level ≤ (g.lines + ((g.board.lock_piece g.cur).clear_lines).1) / 10 <;>
        simp [h1, h2]

/-- Dropping from a non-colliding position ends in a non-colliding
position. -/
theorem hardDropLoop_not_collides (b : Board) : ∀ (p : Piece) (rows : Nat),
    b.collides p = false → b.collides (hardDropLoop b p rows).1 = false := by
  apply hardDropLoop.induct
  · intro p rows h hstart
    rw [hardDropLoop.eq_def, dif_pos h]
    exact hstart
  · intro p rows h ih hstart
    rw [hardDropLoop.eq_def, dif_neg h]
    exact ih (by simpa using h)

/-- The drop loop advances y by exactly the counted rows, changes nothing
else of the piece, and stops exactly where one more row down collides. -/
theorem hardDropLoop_spec (b : Board) : ∀ (p : Piece) (rows : Nat),
    (hardDropLoop b p rows).1.y = p.y + ((hardDropLoop b p rows).2 - rows : Int) ∧
    rows ≤ (hardDropLoop b p rows).2 ∧
    (hardDropLoop b p rows).1.kind = p.kind ∧
    (hardDropLoop b p rows).1.rot = p.rot ∧
    (hardDropLoop b p rows).1.x = p.x ∧
    b.collides { (hardDropLoop b p rows).1 with
                 y := (hardDropLoop b p rows).1.y + 1 } = true := by
  apply hardDropLoop.induct
  · intro p rows h
    rw [hardDropLoop.eq_def, dif_pos h]
    exact ⟨by simp, le_refl _, rfl, rfl, rfl, h⟩
  · intro p rows h ih
    rw [hardDropLoop.eq_def, dif_neg h]
    obtain ⟨h1, h2, h3, h4, h5, h6⟩ := ih
    refine ⟨?_, by omega, h3, h4, h5, h6⟩
    simp only at h1
    push_cast at h1 ⊢
    omega

/-- C6: each successful soft-drop adds exactly 1 point; a hard-drop adds
exactly 2·N points where N is the number of rows descended (the loop
stops exactly where one more row down would collide, a non-colliding
start stays non-colliding, and nothing but y changes); a lock that clears
k lines adds (100, 300, 500, 800 for k = 1..4, 1000 otherwise) times the
level current at the time of the clear; no other transition changes the
score, and the score never decreases. -/
theorem c6_scoring (g : Game) (k : Key) (nk : Kind) :
    ((handleKey g k).score =
      match k with
      | Key.down => if (g.cur.try_move g.board 0 1).1 then g.score + 1 else g.score
      | Key.drop => g.score + (hard_drop g.board g.cur).2 * 2
      | _ => g.score) ∧
    ((gravityTick g nk).score =
      if (g.cur.try_move g.board 0 1).1 then g.score
      else if 0 < ((g.board.lock_piece g.cur).clear_lines).1 then
        g.score + (match ((g.board.lock_piece g.cur).clear_lines).1 with
                   | 1 => 100 | 2 => 300 | 3 => 500 | 4 => 800 | _ => 1000) * g.level
      else g.score) ∧
    g.score ≤ (handleKey g k).score ∧
    g.score ≤ (gravityTick g nk).score ∧
    ((hard_drop g.board g.cur).1.y
       = g.cur.y + ((hard_drop g.board g.cur).2 : Int)) ∧
    (g.board.collides { (hard_drop g.board g.cur).1 with
                        y := (hard_drop g.board g.cur).1.y + 1 } = true) ∧
    (g.board.collides g.cur = false →
       g.board.collides (hard_drop g.board g.cur).1 = false) := by
  obtain ⟨h1, h2, h3, h4, h5, h6⟩ := hardDropLoop_spec g.board g.cur 0
  refine ⟨handleKey_score_eq g k, gravityTick_score_eq g nk, ?_, ?_, ?_, h6,
          fun hs => hardDropLoop_not_collides g.board g.cur 0 hs⟩
  · rw [handleKey_score_eq g k]
    cases k <;> simp only [] <;> (try split) <;> omega
  · rw [gravityTick_score_eq g nk]
    split_ifs <;> omega
  · simpa using h1

/-- Witness for C6: a hard drop of the initial piece of a fresh game ends
in a non-colliding position. -/
theorem c6_witness :
    (Game.new Kind.I Kind.O).board.collides
      (hard_drop (Game.new Kind.I Kind.O).board (Game.new Kind.I Kind.O).cur).1
      = false :=
  (c6_scoring (Game.new Kind.I Kind.O) Key.down Kind.I).2.2.2.2.2.2 (by decide)

/-- C8: after a gravity tick the level rises by exactly 1 when the tick
locks, clears at least one line and lines/10 ≥ level (with lines already
updated), and is unchanged otherwise — never by more than 1 even when a
single clear crosses several 10-line thresholds; at level 1 it becomes 2
exactly when the cumulative lines reach 10, and at level 2 it becomes 3
exactly when they reach 20. -/
theorem c8_level (g : Game) (nk : Kind) :
    ((gravityTick g nk).level =
      if (g.cur.try_move g.board 0 1).1 = false ∧
         0 < ((g.board.lock_piece g.cur).clear_lines).1 ∧
         g.level ≤ (g.lines + ((g.board.lock_piece g.cur).clear_lines).1) / 10 then
        g.level + 1
      else g.level) ∧
    ((gravityTick g nk).level = g.level ∨ (gravityTick g nk).level = g.level + 1) ∧
    (g.level = 1 → (g.cur.try_move g.board 0 1).1 = false →
      ((gravityTick g nk).level = 2 ↔
        0 < ((g.board.lock_piece g.cur).clear_lines).1 ∧
        10 ≤ g.lines + ((g.board.lock_piece g.cur).clear_lines).1)) ∧
    (g.level = 2 → (g.cur.try_move g.board 0 1).1 = false →
      ((gravityTick g nk).level = 3 ↔
        0 < ((g.board.lock_piece g.cur).clear_lines).1 ∧
        20 ≤ g.lines + ((g.board.lock_piece g.cur).clear_lines).1)) := by
  refine ⟨gravityTick_level_eq g nk, ?_, ?_, ?_⟩
  · rw [gravityTick_level_eq g nk]
    split_ifs <;> simp
  · intro hl hm
    rw [gravityTick_level_eq g nk]
    simp only [hl, hm]
    split_ifs with hC
    · obtain ⟨-, hc1, hc2⟩ := hC
      exact ⟨fun _ => ⟨hc1, by omega⟩, fun _ => rfl⟩
    · refine ⟨fun h12 => by omega, fun hd => absurd ⟨trivial, hd.1, by omega⟩ hC⟩
  · intro hl hm
    rw [gravityTick_level_eq g nk]
    simp only [hl, hm]
    split_ifs with hC
    · obtain ⟨-, hc1, hc2⟩ := hC
      exact ⟨fun _ => ⟨hc1, by omega⟩, fun _ => rfl⟩
    · refine ⟨fun h23 => by omega, fun hd => absurd ⟨trivial, hd.1, by omega⟩ hC⟩

/-- Witness for C8: in a game at level 1 with 8 lines, a tick whose lock
clears two rows raises the level to 2; at level 2 with 18 lines the same
clear raises it to 3. -/
theorem c8_witness :
    ((gravityTick g8a Kind.I).level = 2 ↔
      0 < ((g8a.board.lock_piece g8a.cur).clear_lines).1 ∧
      10 ≤ g8a.lines + ((g8a.board.lock_piece g8a.cur).clear_lines).1) ∧
    ((gravityTick g8b Kind.I).level = 3 ↔
      0 < ((g8b.board.lock_piece g8b.cur).clear_lines).1 ∧
      20 ≤ g8b.lines + ((g8b.board.lock_piece g8b.cur).clear_lines).1) :=
  ⟨(c8_level g8a Kind.I).2.2.1 rfl (by decide),
   (c8_level g8b Kind.I).2.2.2 rfl (by decide)⟩

/-- C10: for each of the 7 kinds a freshly constructed piece has all 4
absolute cells inside the board and does not collide with the empty board,
and a newly created game never starts with the game-over flag set. -/
theorem c10_spawn_valid :
    (∀ k : Kind, ((Piece.new k).blocks.all fun d =>
        Board.inside ((Piece.new k).x + d.1) ((Piece.new k).y + d.2)) = true) ∧
    (∀ k : Kind, Board.new.collides (Piece.new k) = false) ∧
    (∀ first next : Kind, (Game.new first next).over = false) :=
  ⟨by decide, by decide, fun _ _ => rfl⟩

/-- Two `List.all` runs agree when the predicates agree on the list. -/
theorem all_eq_of_mem_eq {α : Type} {l : List α} {f f' : α → Bool}
    (h : ∀ x ∈ l, f x = f' x) : l.all f = l.all f' := by
  induction l with
  | nil => rfl
  | cons a l ih =>
    simp only [List.all_cons, h a (by simp)]
    rw [ih (fun x hx => h x (by simp [hx]))]

/-- For an in-range row of a well-formed grid, the get-based fullness test
of the clear loop is fullness of the row list itself. -/
theorem row_full_eq (g : List Row) (n : Nat) (hn : n < H) :
    Board.row_full ⟨g⟩ (n : Int) = isFull (g.getD n []) := by
  unfold Board.row_full isFull
  apply all_eq_of_mem_eq
  intro x hx
  rw [List.mem_range] at hx
  have hin : Board.inside (x : Int) (n : Int) = true := by
    rw [inside_iff]
    constructor
    · omega
    constructor
    · have : (W : Nat) = 10 := rfl
      omega
    constructor
    · omega
    · have : (H : Nat) = 20 := rfl
      omega
  simp [Board.get, hin, Int.toNat_natCast]

/-- Setting at or beyond the take length does not change the prefix. -/
theorem take_set_of_le {α : Type} (a : α) {k m : Nat} (l : List α) (h : m ≤ k) :
    (l.set k a).take m = l.take m := by
  rw [List.set_take]
  apply List.set_eq_of_length_le
  simp only [List.length_take]
  omega

/-- The scan loop of `clear_lines`, characterised: with `n` rows left to
process and `c` rows already cleared, it compacts the non-full rows among
the first `n` (in order) against position `n+c-1`, counts the full ones,
and touches nothing else. -/
theorem clearAux_eq : ∀ (n : Nat) (g : List Row) (c : Nat),
    g.length = H → n + c ≤ H →
    Board.clearAux n g ((n : Int) - 1 + c) c =
      (g.take (c + (g.take n).countP isFull)
         ++ (g.take n).filter (fun r => !isFull r) ++ g.drop (n + c),
       (c : Int) + (g.take n).countP isFull - 1,
       c + (g.take n).countP isFull) := by
  intro n
  induction n with
  | zero =>
    intro g c hg hc
    simp [Board.clearAux, List.take_append_drop]
    omega
  | succ n ih =>
    intro g c hg hc
    have hn : n < g.length := by omega
    have hgetD : g.getD n [] = g[n] := by
      simp [List.getD_eq_getElem?_getD, List.getElem?_eq_getElem hn]
    have hfull_eq : Board.row_full ⟨g⟩ ((n : Nat) : Int) = isFull g[n] := by
      rw [row_full_eq g n (by omega), hgetD]
    have hw : (((n + 1 : Nat) : Int) - 1 + c) = (n : Int) + c := by push_cast; ring
    have htake : g.take (n + 1) = g.take n ++ [g[n]] := by
      rw [List.take_succ, List.getElem?_eq_getElem hn]
      rfl
    have hcountP : (g.take (n + 1)).countP isFull
        = (g.take n).countP isFull + if isFull g[n] then 1 else 0 := by
      rw [htake, List.countP_append]
      simp [List.countP_cons]
    have hfilter : (g.take (n + 1)).filter (fun r => !isFull r)
        = (g.take n).filter (fun r => !isFull r)
          ++ if isFull g[n] then [] else [g[n]] := by
      rw [htake, List.filter_append]
      by_cases hf : isFull g[n] = true <;> simp [hf]
    rw [hw]
    cases hfull : isFull g[n] with
    | true =>
      have hcountP' : (g.take (n + 1)).countP isFull
          = (g.take n).countP isFull + 1 := by
        rw [hcountP, hfull]
        simp
      have hfilter' : (g.take (n + 1)).filter (fun r => !isFull r)
          = (g.take n).filter (fun r => !isFull r) := by
        rw [hfilter, hfull]
        simp
      simp only [Board.clearAux, hfull_eq, hfull, Bool.not_true, Bool.false_eq_true,
        if_false]
      have hw2 : ((n : Int) - 1 + ((c + 1 : Nat) : Int)) = (n : Int) + c := by
        push_cast; ring
      rw [← hw2, ih g (c + 1) hg (by omega)]
      rw [hcountP', hfilter']
      refine Prod.ext ?_ (Prod.ext ?_ ?_)
      · simp only []
        have e1 : c + ((g.take n).countP isFull + 1)
            = c + 1 + (g.take n).countP isFull := by omega
        have e2 : n + 1 + c = n + (c + 1) := by omega
        rw [e1, e2]
      · simp only []
        push_cast
        ring
      · simp only []
        omega
    | false =>
      have hcountP' : (g.take (n + 1)).countP isFull
          = (g.take n).countP isFull := by
        rw [hcountP, hfull]
        simp
      have hfilter' : (g.take (n + 1)).filter (fun r => !isFull r)
          = (g.take n).filter (fun r => !isFull r) ++ [g[n]] := by
        rw [hfilter, hfull]
        simp
      simp only [Board.clearAux, hfull_eq, hfull, Bool.not_false, if_true]
      rw [hcountP', hfilter']
      by_cases hc0 : c = 0
      · subst hc0
        have hcond : ¬(((n : Int) + (0 : Nat)) ≠ (n : Int)) := by push_cast; omega
        rw [if_neg hcond]
        have hw3 : ((n : Int) + ((0 : Nat) : Int) - 1)
            = (n : Int) - 1 + ((0 : Nat) : Int) := by
          push_cast; ring
        rw [hw3, ih g 0 hg (by omega)]
        refine Prod.ext ?_ (Prod.ext ?_ ?_)
        · simp only []
          have hdrop : g.drop (n + 0) = g[n] :: g.drop (n + 1 + 0) := by
            simp only [Nat.add_zero]
            rw [← List.getElem_cons_drop g n hn]
          rw [hdrop]
          simp
        · simp
        · simp
      · have hcond : (((n : Int) + (c : Nat)) ≠ (n : Int)) := by
          have : 0 < c := Nat.pos_of_ne_zero hc0
          omega
        rw [if_pos hcond]
        have htonat : (((n : Int) + c)).toNat = n + c := by omega
        rw [htonat, hgetD]
        have hw4 : ((n : Int) + ((c : Nat) : Int) - 1)
            = (n : Int) - 1 + ((c : Nat) : Int) := by
          ring
        rw [hw4]
        have hlen' : (g.set (n + c) g[n]).length = H := by
          rw [List.length_set]
          exact hg
        rw [ih (g.set (n + c) g[n]) c hlen' (by omega)]
        have hnc : n < n + c := by omega
        have hncH : n + c < g.length := by omega
        have htk : (g.set (n + c) g[n]).take n = g.take n :=
          List.take_set_of_lt _ _ hnc
        have hcf_le : (g.take n).countP isFull ≤ n := by
          calc (g.take n).countP isFull
              ≤ (g.take n).length := List.countP_le_length _
            _ = n := by
                simp [List.length_take]
                omega
        have htk2 : (g.set (n + c) g[n]).take (c + (g.take n).countP isFull)
            = g.take (c + (g.take n).countP isFull) :=
          take_set_of_le _ _ (by omega)
        have hdrop2 : (g.set (n + c) g[n]).drop (n + c)
            = g[n] :: g.drop (n + c + 1) := by
          have hska : g.drop (n + c) = g[n + c] :: g.drop (n + c + 1) := by
            rw [← List.getElem_cons_drop g (n + c) hncH]
          rw [List.drop_set, if_neg (by omega), Nat.sub_self, hska,
            List.set_cons_zero]
        refine Prod.ext ?_ (Prod.ext ?_ ?_)
        · simp only []
          rw [htk, htk2, hdrop2]
          have e3 : n + 1 + c = n + c + 1 := by omega
          rw [e3]
          simp
        · simp only []
          rw [htk]
        · simp only []
          rw [htk]

/-- The blanking loop of `clear_lines` replaces the first `n` rows with
empty rows. -/
theorem blankRows_eq (g : List Row) : ∀ (n : Nat), n ≤ g.length →
    blankRows g n = List.replicate n emptyRow ++ g.drop n := by
  intro n
  induction n with
  | zero =>
    intro h
    simp [blankRows]
  | succ n ih =>
    intro h
    have hn : n < g.length := by omega
    rw [blankRows, ih (by omega)]
    rw [List.set_append_right _ _ (by simp)]
    simp only [List.length_replicate, Nat.sub_self]
    rw [← List.getElem_cons_drop g n hn, List.set_cons_zero]
    rw [List.replicate_succ']
    simp [List.append_assoc]

/-- Full characterisation of `clear_lines` on a well-formed grid: the count
of full rows, and the grid that keeps the non-full rows in order at the
bottom below freshly emptied rows. -/
theorem clear_lines_eq (b : Board) (hg : b.grid.length = H) :
    b.clear_lines =
      (b.grid.countP isFull,
       ⟨List.replicate (b.grid.countP isFull) emptyRow
          ++ b.grid.filter (fun r => !isFull r)⟩) := by
  unfold Board.clear_lines
  have h0 : ((H : Nat) : Int) - 1 = ((H : Nat) : Int) - 1 + ((0 : Nat) : Int) := by
    simp
  rw [h0, clearAux_eq H b.grid 0 hg (by omega)]
  have htake : b.grid.take H = b.grid := by
    rw [← hg]
    exact List.take_length b.grid
  have hdropH : b.grid.drop (H + 0) = [] := by
    rw [Nat.add_zero, ← hg]
    exact List.drop_length b.grid
  simp only [htake, hdropH, List.append_nil, Nat.zero_add]
  have hcf : b.grid.countP isFull ≤ H := by
    rw [← hg]
    exact List.countP_le_length _
  have htonat : (((0 : Nat) : Int) + (b.grid.countP isFull : Nat) - 1 + 1).toNat
      = b.grid.countP isFull := by omega
  simp only [htonat]
  have hlen2 : b.grid.countP isFull
      ≤ (b.grid.take (b.grid.countP isFull)
          ++ b.grid.filter (fun r => !isFull r)).length := by
    simp only [List.length_append, List.length_take]
    omega
  rw [blankRows_eq _ _ hlen2]
  have hlen_take : (b.grid.take (b.grid.countP isFull)).length
      = b.grid.countP isFull := by
    simp only [List.length_take]
    omega
  rw [List.drop_left' hlen_take]

/-- C2: `clear_lines` returns the number of rows in which all 10 columns
are occupied; afterwards the full rows are gone, the non-full rows keep
their order and contents and sit at the bottom (each one lower by the
number of full rows that were beneath it), and the topmost `count` rows
are empty — i.e. the new grid is `count` empty rows on top of the non-full
rows in their original order. -/
theorem c2_clear_lines (b : Board) (hg : b.grid.length = H) :
    (b.clear_lines).1 = b.grid.countP isFull ∧
    (b.clear_lines).2.grid =
      List.replicate (b.clear_lines).1 emptyRow
        ++ b.grid.filter (fun r => !isFull r) := by
  rw [clear_lines_eq b hg]
  exact ⟨rfl, rfl⟩

/-- Witness for C2 on the completely occupied board: 20 rows cleared. -/
theorem c2_witness :
    (fullBoard.clear_lines).1 = fullBoard.grid.countP isFull ∧
    (fullBoard.clear_lines).2.grid =
      List.replicate (fullBoard.clear_lines).1 emptyRow
        ++ fullBoard.grid.filter (fun r => !isFull r) :=
  c2_clear_lines fullBoard (by decide)

/-- Counterexample to C3: `rows25Board` has exactly rows 2 and 5 full and
all other rows partially filled, `clear_lines` does return 2 and leaves
rows 0 and 1 empty, but rows 18 and 19 afterwards do NOT hold the rows
that were immediately below row 2 (old rows 3 and 4, in either order).
They hold what were rows 18 and 19 themselves, which are unchanged since
no full row lay beneath them. -/
theorem c3_counterexample :
    (∀ i, i < H → (isFull (rows25Board.grid.getD i []) = true ↔ (i = 2 ∨ i = 5))) ∧
    (∀ i, i < H → ¬(i = 2 ∨ i = 5) →
      (rows25Board.grid.getD i []).any (fun c => c.isSome) = true ∧
      (rows25Board.grid.getD i []).any (fun c => c.isNone) = true) ∧
    (rows25Board.clear_lines).1 = 2 ∧
    (rows25Board.clear_lines).2.grid.getD 0 [] = emptyRow ∧
    (rows25Board.clear_lines).2.grid.getD 1 [] = emptyRow ∧
    (rows25Board.clear_lines).2.grid.getD 18 [] ≠ rows25Board.grid.getD 3 [] ∧
    (rows25Board.clear_lines).2.grid.getD 18 [] ≠ rows25Board.grid.getD 4 [] ∧
    (rows25Board.clear_lines).2.grid.getD 19 [] ≠ rows25Board.grid.getD 3 [] ∧
    (rows25Board.clear_lines).2.grid.getD 19 [] ≠ rows25Board.grid.getD 4 [] ∧
    (rows25Board.clear_lines).2.grid.getD 18 [] = rows25Board.grid.getD 18 [] ∧
    (rows25Board.clear_lines).2.grid.getD 19 [] = rows25Board.grid.getD 19 [] := by
  decide

/-- C3 as amended: on a 10×20 board whose rows 2 and 5 are full and whose
other rows are not full, `clear_lines` returns 2 and produces the grid
with rows 0 and 1 empty, old rows 0 and 1 shifted down to rows 2 and 3,
old rows 3 and 4 (the two rows immediately below row 2) shifted down by
one to rows 4 and 5, and old rows 6..19 — in particular rows 18 and 19 —
unchanged in place. -/
theorem c3_amended_clear (r0 r1 r2 r3 r4 r5 r6 r7 r8 r9 r10 r11 r12 r13 r14
    r15 r16 r17 r18 r19 : Row)
    (h2 : isFull r2 = true) (h5 : isFull r5 = true)
    (h0 : isFull r0 = false) (h1 : isFull r1 = false) (h3 : isFull r3 = false)
    (h4 : isFull r4 = false) (h6 : isFull r6 = false) (h7 : isFull r7 = false)
    (h8 : isFull r8 = false) (h9 : isFull r9 = false) (h10 : isFull r10 = false)
    (h11 : isFull r11 = false) (h12 : isFull r12 = false) (h13 : isFull r13 = false)
    (h14 : isFull r14 = false) (h15 : isFull r15 = false) (h16 : isFull r16 = false)
    (h17 : isFull r17 = false) (h18 : isFull r18 = false) (h19 : isFull r19 = false) :
    (Board.mk [r0, r1, r2, r3, r4, r5, r6, r7, r8, r9, r10, r11, r12, r13, r14,
               r15, r16, r17, r18, r19]).clear_lines =
      (2, ⟨[emptyRow, emptyRow, r0, r1, r3, r4, r6, r7, r8, r9, r10, r11, r12,
            r13, r14, r15, r16, r17, r18, r19]⟩) := by
  rw [clear_lines_eq _ (by rfl)]
  simp [List.countP_cons, List.filter, h0, h1, h2, h3, h4, h5, h6, h7, h8, h9,
    h10, h11, h12, h13, h14, h15, h16, h17, h18, h19, List.replicate]

/-- Witness for the amended C3 at the concrete rows of `rows25Board`. -/
theorem c3_witness :
    (Board.mk [gapRow 0, gapRow 1, fullRowO, gapRow 3, gapRow 4, fullRowO,
               gapRow 6, gapRow 7, gapRow 8, gapRow 9, gapRow 0, gapRow 1,
               gapRow 2, gapRow 3, gapRow 4, gapRow 5, gapRow 6, gapRow 7,
               gapRow 8, gapRow 9]).clear_lines =
      (2, ⟨[emptyRow, emptyRow, gapRow 0, gapRow 1, gapRow 3, gapRow 4,
            gapRow 6, gapRow 7, gapRow 8, gapRow 9, gapRow 0, gapRow 1,
            gapRow 2, gapRow 3, gapRow 4, gapRow 5, gapRow 6, gapRow 7,
            gapRow 8, gapRow 9]⟩) :=
  c3_amended_clear _ _ _ _ _ _ _ _ _ _ _ _ _ _ _ _ _ _ _ _
    (by decide) (by decide) (by decide) (by decide) (by decide) (by decide)
    (by decide) (by decide) (by decide) (by decide) (by decide) (by decide)
    (by decide) (by decide) (by decide) (by decide) (by decide) (by decide)
    (by decide) (by decide)

end TermTetris
